import Mathlib

/-!
Verification of the divi repository (a crawler/normalizer/ledger for the DIVI
intensive-care register archive) against its natural-language specification.

The Rust sources (src/divi.rs, src/store.rs, src/main.rs) are shallowly
embedded below.  Strings are modelled as Lean `String`s viewed as sequences of
characters; the archive data is ASCII, so byte indices and character indices
coincide and `String.length` models Rust's byte length.  Filesystem writes are
modelled by explicit state plus an ordered event trace; JSON
serialization/deserialization is modelled as the identity (the spec treats the
on-disk encoding as an opaque serialize/deserialize contract).  Rust panics are
modelled by an explicit `Outcome.panicked` result.
-/

deriving instance DecidableEq for Except

namespace Divi

/-- Numeric value of a list of decimal digit characters (most significant first). -/
def natOfDigits (cs : List Char) : Nat :=
  cs.foldl (fun a c => 10 * a + (c.toNat - '0'.toNat)) 0

/-- Model of Rust's `str::parse` for unsigned integer types: an optional
leading `+` sign followed by one or more ASCII digits.  Overflow of the
fixed-width Rust type is not modelled (the inputs relevant here are small). -/
def parseNatRust (s : String) : Option Nat :=
  let ds := if s.toList.head? = some '+' then s.toList.tail else s.toList
  if ds.isEmpty then none
  else if ds.all Char.isDigit then some (natOfDigits ds) else none

/-- Model of `chrono::NaiveDate`: a calendar date. -/
structure NaiveDate where
  year : Nat
  month : Nat
  day : Nat
deriving DecidableEq, Repr

/-- Model of `chrono::NaiveDateTime`: a date with a time of day. -/
structure NaiveDateTime where
  date : NaiveDate
  hour : Nat
  minute : Nat
  second : Nat
deriving DecidableEq, Repr

def isLeapYear (y : Nat) : Bool :=
  (y % 4 == 0 && y % 100 != 0) || y % 400 == 0

def daysInMonth (y m : Nat) : Nat :=
  if m == 2 then (if isLeapYear y then 29 else 28)
  else if m == 4 || m == 6 || m == 9 || m == 11 then 30
  else 31

/-- Calendar validity, as checked by `chrono::NaiveDate::from_ymd` (which
panics on an invalid year/month/day combination). -/
def dateValid (y m d : Nat) : Bool :=
  1 ≤ m && m ≤ 12 && 1 ≤ d && d ≤ daysInMonth y m

/-- Read exactly `n` decimal digits from the front of `cs`, returning their
value and the remaining characters. -/
def readFixedNat (n : Nat) (cs : List Char) : Option (Nat × List Char) :=
  let ds := cs.take n
  if ds.length == n && ds.all Char.isDigit then some (natOfDigits ds, cs.drop n)
  else none

/-- Require the next character to be `c`. -/
def expectChar (c : Char) : List Char → Option (List Char)
  | [] => none
  | x :: rest => if x = c then some rest else none

/-- Model of `NaiveDateTime::parse_from_str(s, "%Y-%m-%d %H:%M:%S")`: a strict
zero-padded rendering of the fixed date-space-time format, with calendar and
time-of-day validity checks (chrono returns a parse error on failure). -/
def parseDateTime (s : String) : Option NaiveDateTime := do
  let cs := s.toList
  let (y, cs) ← readFixedNat 4 cs
  let cs ← expectChar '-' cs
  let (mo, cs) ← readFixedNat 2 cs
  let cs ← expectChar '-' cs
  let (d, cs) ← readFixedNat 2 cs
  let cs ← expectChar ' ' cs
  let (h, cs) ← readFixedNat 2 cs
  let cs ← expectChar ':' cs
  let (mi, cs) ← readFixedNat 2 cs
  let cs ← expectChar ':' cs
  let (sec, cs) ← readFixedNat 2 cs
  if cs.isEmpty && dateValid y mo d && h ≤ 23 && mi ≤ 59 && sec ≤ 59 then
    pure ⟨⟨y, mo, d⟩, h, mi, sec⟩
  else none

/-- The `Error` enum of src/divi.rs (payloads dropped; only the variant
identity matters to the claims). -/
inductive Error where
  | parseError
  | http
  | csv
  | urlError
  | emptyDataSet
  | invalidRow
  | chrono
  | parseInt
  | missingTimestamp
deriving DecidableEq, Repr

/-- Result of running a piece of Rust code that can return a value, return an
`Error`, or panic. -/
inductive Outcome (α : Type) where
  | ok : α → Outcome α
  | err : Error → Outcome α
  | panicked : Outcome α
deriving DecidableEq, Repr

/-- The `RawRow` struct of src/divi.rs: one CSV record as deserialized, with
era-dependent optional fields. -/
structure RawRow where
  idx : Option Nat
  bundesland : Option Nat
  gemeindeschluessel : Option String
  kreis : Option String
  anzahl_meldebereiche : Option Nat
  faelle_covid_aktuell : Option Nat
  faelle_covid_aktuell_invasiv_beatmet : Option Nat
  faelle_covid_aktuell_beatmet : Option Nat
  faelle_cobid_aktuell_im_bundesland : Option Nat
  anzahl_standorte : Nat
  betten_frei : String
  betten_belegt : String
  daten_stand : Option String
  betten_belegt_nur_erwachsen : Option Nat
  betten_frei_nur_erwachsen : Option Nat
deriving DecidableEq, Repr

/-- The canonical `Row` struct of src/divi.rs. -/
structure Row where
  state : Nat
  ags : String
  num_report_areas : Option Nat
  cases_current : Option Nat
  cases_ventilated : Option Nat
  num_locations : Nat
  beds_available : Nat
  beds_occupied : Nat
  timestamp : NaiveDateTime
  beds_occupied_adults : Option Nat
  beds_available_adults : Option Nat
deriving DecidableEq, Repr

/-- Model of Rust's `str::split(sep)`: the list of parts between occurrences
of `sep`; always non-empty (an input without `sep` yields one part). -/
def splitCharList (sep : Char) : List Char → List (List Char)
  | [] => [[]]
  | c :: rest =>
    if c = sep then [] :: splitCharList sep rest
    else
      match splitCharList sep rest with
      | [] => [[c]]
      | p :: ps => (c :: p) :: ps

/-- `parse_decimal_to_int` of src/divi.rs: take the first part of
`s.split('.')` and parse it as an unsigned integer.  The `InvalidRow` branch
guards the (unreachable) case of `split` yielding no part at all; a parse
failure surfaces as `Error::ParseInt` via the `?` conversion. -/
def parse_decimal_to_int (s : String) : Except Error Nat :=
  match (splitCharList '.' s.toList).head? with
  | none => .error .invalidRow
  | some part =>
    match parseNatRust (String.mk part) with
    | some n => .ok n
    | none => .error .parseInt

/-- `Row::from_raw` of src/divi.rs: resolve the timestamp (explicit
`daten_stand` field parsed with the fixed format, else the hint, else
`MissingTimestamp`), resolve the region key (`gemeindeschluessel` else
`kreis`, else `InvalidRow`), resolve the ventilated-case count, resolve the
state code (`bundesland` else the byte slice `ags[0..2]` parsed as an
integer — the slice panics when `ags` is shorter than two bytes), and parse
the two bed-count fields. -/
def Row.from_raw (raw : RawRow) (timestamp_hint : Option NaiveDateTime) : Outcome Row :=
  let ts : Outcome NaiveDateTime :=
    match raw.daten_stand, timestamp_hint with
    | some daten_stand, _ =>
      match parseDateTime daten_stand with
      | some t => .ok t
      | none => .err .chrono
    | none, some hint => .ok hint
    | none, none => .err .missingTimestamp
  match ts with
  | .err e => .err e
  | .panicked => .panicked
  | .ok timestamp =>
    match raw.gemeindeschluessel.or raw.kreis with
    | none => .err .invalidRow
    | some ags =>
      let cases_ventilated :=
        raw.faelle_covid_aktuell_invasiv_beatmet.or raw.faelle_covid_aktuell_beatmet
      let stateRes : Outcome Nat :=
        match raw.bundesland with
        | some bundesland => .ok bundesland
        | none =>
          if ags.length < 2 then .panicked
          else
            match parseNatRust (ags.take 2) with
            | some n => .ok n
            | none => .err .parseInt
      match stateRes with
      | .err e => .err e
      | .panicked => .panicked
      | .ok state =>
        match parse_decimal_to_int raw.betten_frei with
        | .error e => .err e
        | .ok beds_available =>
          match parse_decimal_to_int raw.betten_belegt with
          | .error e => .err e
          | .ok beds_occupied =>
            .ok { state, ags,
                  num_report_areas := raw.anzahl_meldebereiche,
                  cases_current := raw.faelle_covid_aktuell,
                  cases_ventilated,
                  num_locations := raw.anzahl_standorte,
                  beds_available, beds_occupied, timestamp,
                  beds_occupied_adults := raw.betten_belegt_nur_erwachsen,
                  beds_available_adults := raw.betten_frei_nur_erwachsen }

/-- The `DataSet` struct of src/divi.rs; URLs are modelled as strings. -/
structure DataSet where
  date : NaiveDate
  source_url : String
  rows : List Row
deriving DecidableEq, Repr

/-- `DataSet::new` of src/divi.rs: the date is taken from the first row;
an empty row list fails with `EmptyDataSet`. -/
def DataSet.new (source_url : String) (rows : List Row) : Except Error DataSet :=
  match rows.head? with
  | none => .error .emptyDataSet
  | some r => .ok { date := r.timestamp.date, source_url, rows }

/-- Attempt to match the regex `(\d{4})-(\d{2})-(\d{2})-(\d{2})-(\d{2})` of
`timestamp_hint_from_url` at the very start of `cs`, returning the five
captured numbers. -/
def matchTimestampPattern (cs : List Char) : Option (Nat × Nat × Nat × Nat × Nat) := do
  let (y, cs) ← readFixedNat 4 cs
  let cs ← expectChar '-' cs
  let (m, cs) ← readFixedNat 2 cs
  let cs ← expectChar '-' cs
  let (d, cs) ← readFixedNat 2 cs
  let cs ← expectChar '-' cs
  let (h, cs) ← readFixedNat 2 cs
  let cs ← expectChar '-' cs
  let (mi, _) ← readFixedNat 2 cs
  pure (y, m, d, h, mi)

/-- Leftmost match of the timestamp regex in a character sequence, as found by
`Regex::captures`. -/
def findTimestampMatch : List Char → Option (Nat × Nat × Nat × Nat × Nat)
  | [] => none
  | c :: rest =>
    match matchTimestampPattern (c :: rest) with
    | some r => some r
    | none => findTimestampMatch rest

/-- `timestamp_hint_from_url` of src/divi.rs, applied to the URL's path
component: if the path contains a `YYYY-MM-DD-HH-MM` digit pattern, build the
hint with `NaiveDate::from_ymd(..).and_hms(h, m, 0)`.  Both chrono calls panic
on out-of-range components. -/
def timestamp_hint_from_url (path : String) : Outcome (Option NaiveDateTime) :=
  match findTimestampMatch path.toList with
  | none => .ok none
  | some (y, m, d, h, mi) =>
    if dateValid y m d then
      if h ≤ 23 && mi ≤ 59 then .ok (some ⟨⟨y, m, d⟩, h, mi, 0⟩)
      else .panicked
    else .panicked

/-- Normalize every raw record with the given hint, aborting on the first
error or panic (the `collect::<Result<Vec<Row>, Error>>()` of
`Api::get_archived`). -/
def collectRows (hint : Option NaiveDateTime) : List RawRow → Outcome (List Row)
  | [] => .ok []
  | raw :: rest =>
    match Row.from_raw raw hint with
    | .panicked => .panicked
    | .err e => .err e
    | .ok row =>
      match collectRows hint rest with
      | .ok rows => .ok (row :: rows)
      | .err e => .err e
      | .panicked => .panicked

/-- `Api::get_archived` of src/divi.rs with network and CSV decoding
abstracted: the already-deserialized records stand in for the fetched CSV
body.  The hint is derived from the URL path first; then every record is
normalized; then the `DataSet` is built from the URL and the rows. -/
def Api.get_archived (urlPath : String) (records : List RawRow) : Outcome DataSet :=
  match timestamp_hint_from_url urlPath with
  | .panicked => .panicked
  | .err e => .err e
  | .ok timestamp_hint =>
    match collectRows timestamp_hint records with
    | .panicked => .panicked
    | .err e => .err e
    | .ok rows =>
      match DataSet.new urlPath rows with
      | .error e => .err e
      | .ok ds => .ok ds

/-- The `Info` struct of src/store.rs: the set of already-synced source URLs.
The Rust `HashSet` is modelled as a duplicate-free list queried by
membership. -/
structure Info where
  urls_synced : List String
deriving DecidableEq, Repr

/-- `HashSet::insert`: add the URL unless it is already a member. -/
def Info.insertUrl (info : Info) (url : String) : Info :=
  if info.urls_synced.contains url then info
  else { urls_synced := info.urls_synced ++ [url] }

/-- A filesystem write performed by the store, in the order it is issued. -/
inductive Event where
  | writeDataset : String → DataSet → Event
  | writeInfo : Info → Event
deriving DecidableEq, Repr

/-- Zero-pad a number to two digits (`%m`, `%d`). -/
def pad2 (n : Nat) : String :=
  if n < 10 then "0" ++ toString n else toString n

/-- Zero-pad a number to four digits (`%Y`). -/
def pad4 (n : Nat) : String :=
  if n < 10 then "000" ++ toString n
  else if n < 100 then "00" ++ toString n
  else if n < 1000 then "0" ++ toString n
  else toString n

/-- `date.format("%Y-%m-%d")`. -/
def formatDate (d : NaiveDate) : String :=
  pad4 d.year ++ "-" ++ pad2 d.month ++ "-" ++ pad2 d.day

/-- `Store::rows_path`: the dataset file path is deterministically keyed by
the store directory and the dataset date. -/
def rows_path (storePath : String) (date : NaiveDate) : String :=
  storePath ++ "/" ++ formatDate date ++ ".json"

/-- Replace the value stored under `key`, or append a new entry: the effect of
opening a file with `.create(true).truncate(true)` and rewriting it. -/
def upsert (files : List (String × DataSet)) (key : String) (ds : DataSet) :
    List (String × DataSet) :=
  match files with
  | [] => [(key, ds)]
  | (k, v) :: rest =>
    if k = key then (k, ds) :: rest else (k, v) :: upsert rest key ds

/-- The `Store` struct of src/store.rs together with the slice of the
filesystem it owns: `dataFiles` are the per-date JSON files (path ↦ decoded
dataset), `infoFile` is the durable `info.json` (decoded), and `info` is the
in-memory copy of the known-URL set. -/
structure Store where
  path : String
  dataFiles : List (String × DataSet)
  infoFile : Option Info
  info : Info
deriving DecidableEq, Repr

/-- `Store::new`: load the persisted `Info` when the info file exists, else
start from the default (empty) set. -/
def Store.new (path : String) (infoFile : Option Info)
    (dataFiles : List (String × DataSet)) : Store :=
  { path, dataFiles, infoFile, info := infoFile.getD ⟨[]⟩ }

/-- `Store::get_dataset`: read back the file keyed by the date. -/
def Store.get_dataset (s : Store) (date : NaiveDate) : Option DataSet :=
  s.dataFiles.lookup (rows_path s.path date)

/-- `Store::save_info`: rewrite the durable info file from the in-memory set. -/
def Store.save_info (s : Store) : Store × Event :=
  ({ s with infoFile := some s.info }, .writeInfo s.info)

/-- `Store::put_dataset`: write the dataset file keyed by its date, insert the
source URL into the in-memory known-set, then persist the known-set.  The
returned trace lists the filesystem writes in issue order. -/
def Store.put_dataset (s : Store) (ds : DataSet) : Store × List Event :=
  let p := rows_path s.path ds.date
  let s1 : Store := { s with dataFiles := upsert s.dataFiles p ds }
  let s2 : Store := { s1 with info := s1.info.insertUrl ds.source_url }
  let saved := s2.save_info
  (saved.1, [.writeDataset p ds, saved.2])

/-- `Store::contains_dataset_source_url`: membership in the in-memory set. -/
def Store.contains_dataset_source_url (s : Store) (url : String) : Bool :=
  s.info.urls_synced.contains url

/-- The state of `ArchiveStream` of src/divi.rs: the pending page fetch is
modelled by the remaining pages of the listing (the head is the page the
pending future will return; its next-link exists exactly when further pages
remain), and `urls` is the buffer of not-yet-yielded URLs. -/
structure ArchiveState where
  request_future : Option (List (List String))
  urls : List String
deriving DecidableEq, Repr

/-- The buffer-empty branch of `poll_next`: resolve the pending page fetch,
reverse the page's URLs into the buffer, set up the next page fetch from the
page's next-link, and loop (skipping pages with no URLs). -/
def refill : List (List String) → Option String × ArchiveState
  | [] => (none, ⟨none, []⟩)
  | page :: rest =>
    match page.reverse.getLast? with
    | some u => (some u, ⟨if rest.isEmpty then none else some rest, page.reverse.dropLast⟩)
    | none => refill rest

/-- `ArchiveStream::poll_next`: pop the last buffered URL (`Vec::pop`) if the
buffer is non-empty; otherwise resolve the pending page fetch, or terminate
when no fetch is pending. -/
def pollNext (s : ArchiveState) : Option String × ArchiveState :=
  match s.urls.getLast? with
  | some u => (some u, ⟨s.request_future, s.urls.dropLast⟩)
  | none =>
    match s.request_future with
    | none => (none, s)
    | some pages => refill pages

/-- Drive the stream to completion, collecting the yielded URLs in order.
`fuel` bounds the number of polls; any fuel at least the total URL count plus
one yields the full sequence. -/
def runStream (fuel : Nat) (s : ArchiveState) : List String :=
  match fuel with
  | 0 => []
  | fuel + 1 =>
    match pollNext s with
    | (none, _) => []
    | (some u, s') => u :: runStream fuel s'

/-- The initial stream state of `ArchiveStream::new`: the first page fetch is
pending and the buffer is empty. -/
def initialArchiveState (pages : List (List String)) : ArchiveState :=
  ⟨some pages, []⟩

/-- The sync loop of `Args::run` in src/main.rs, with the report fetcher
abstracted as a total function (the claims quantify over runs in which every
performed fetch succeeds).  Returns the URLs passed to the fetcher, in
invocation order, together with the final store. -/
def syncRun (get_archived : String → DataSet) (check_all resync_all : Bool) :
    Store → List String → List String × Store
  | store, [] => ([], store)
  | store, url :: rest =>
    if !resync_all && store.contains_dataset_source_url url then
      if check_all then syncRun get_archived check_all resync_all store rest
      else ([], store)
    else
      let dataset := get_archived url
      let store' := (store.put_dataset dataset).1
      let res := syncRun get_archived check_all resync_all store' rest
      (url :: res.1, res.2)

/-- Spec-side rendering of "the substring of the input string before the
first `.` (the whole string when no `.` is present)". -/
def truncateAtDot (s : String) : String :=
  String.mk (s.toList.takeWhile (fun c => c ≠ '.'))

/-- Spec-side rendering of "a non-negative integer" literal as accepted by
the parser: an optional `+` sign followed by at least one decimal digit. -/
def isNonNegIntLiteral (s : String) : Bool :=
  let ds := if s.toList.head? = some '+' then s.toList.tail else s.toList
  !ds.isEmpty && ds.all Char.isDigit

/-- Spec-side value of a non-negative integer literal. -/
def nonNegIntValue (s : String) : Nat :=
  let ds := if s.toList.head? = some '+' then s.toList.tail else s.toList
  natOfDigits ds

/-! ### Helper lemmas -/

theorem splitCharList_ne_nil (sep : Char) (cs : List Char) :
    splitCharList sep cs ≠ [] := by
  induction cs with
  | nil => simp [splitCharList]
  | cons c rest ih =>
    simp only [splitCharList]
    split
    · simp
    · cases h : splitCharList sep rest with
      | nil => simp
      | cons p ps => simp

theorem splitCharList_head (sep : Char) (cs : List Char) :
    (splitCharList sep cs).head? = some (cs.takeWhile (fun c => c ≠ sep)) := by
  induction cs with
  | nil => rfl
  | cons c rest ih =>
    simp only [splitCharList, List.takeWhile]
    by_cases h : c = sep
    · simp [h]
    · cases hs : splitCharList sep rest with
      | nil => exact absurd hs (splitCharList_ne_nil sep rest)
      | cons p ps =>
        rw [hs] at ih
        simp only [List.head?] at ih
        simp [h, Option.some.injEq] at ih ⊢
        exact ih

theorem parseNatRust_spec (s : String) :
    parseNatRust s =
      if isNonNegIntLiteral s then some (nonNegIntValue s) else none := by
  unfold parseNatRust isNonNegIntLiteral nonNegIntValue
  generalize (if s.toList.head? = some '+' then s.toList.tail else s.toList) = ds
  by_cases h1 : ds = []
  · simp [h1]
  · by_cases h2 : ds.all Char.isDigit
    · simp [h1, h2, List.isEmpty_iff]
    · simp [h1, h2, List.isEmpty_iff]

/-- `parse_decimal_to_int` stated via the substring before the first dot. -/
theorem parse_decimal_to_int_eq (s : String) :
    parse_decimal_to_int s =
      match parseNatRust (truncateAtDot s) with
      | some n => .ok n
      | none => .error .parseInt := by
  unfold parse_decimal_to_int truncateAtDot
  rw [splitCharList_head]

/-! ### C3 — bed-count parsing -/

/-- C3 (counterexample): the claim asserts that "12.5garbage" yields an
error and that non-numeric truncated content fails with `InvalidRow`.  In the
code, `"12.5garbage".split('.')` has first part `"12"`, which parses to `12`;
and a truncated part that fails to parse surfaces as `Error::ParseInt`, not
`InvalidRow`. -/
theorem parse_decimal_claimed_error_refuted :
    parse_decimal_to_int "12.5garbage" = .ok 12
  ∧ parse_decimal_to_int "garbage" = .error .parseInt
  ∧ parse_decimal_to_int "garbage" ≠ .error .invalidRow := by
  refine ⟨rfl, rfl, ?_⟩
  decide

/-- C3 (amended): bed-count parsing takes the substring of the input before
the first `.` (the whole string when no `.` is present) and parses it as a
non-negative integer, failing with a `ParseInt` error when the truncated
content is not a non-negative integer literal; in particular "12.0", "12" and
"12.5garbage" all yield 12. -/
theorem parse_decimal_to_int_amended (s : String) :
    (isNonNegIntLiteral (truncateAtDot s) = true →
        parse_decimal_to_int s = .ok (nonNegIntValue (truncateAtDot s)))
  ∧ (isNonNegIntLiteral (truncateAtDot s) = false →
        parse_decimal_to_int s = .error .parseInt) := by
  rw [parse_decimal_to_int_eq, parseNatRust_spec]
  constructor
  · intro h
    simp [h]
  · intro h
    simp [h]

/-- C3 (witness): the amended theorem instantiated at the spec's example
inputs. -/
theorem parse_decimal_to_int_amended_witness :
    parse_decimal_to_int "12.0" = .ok (nonNegIntValue (truncateAtDot "12.0"))
  ∧ parse_decimal_to_int "12" = .ok (nonNegIntValue (truncateAtDot "12"))
  ∧ parse_decimal_to_int "12.5garbage"
      = .ok (nonNegIntValue (truncateAtDot "12.5garbage")) :=
  ⟨(parse_decimal_to_int_amended "12.0").1 (by decide),
   (parse_decimal_to_int_amended "12").1 (by decide),
   (parse_decimal_to_int_amended "12.5garbage").1 (by decide)⟩

/-! ### C6 — DataSet construction -/

/-- C6: `DataSet::new` fails with `EmptyDataSet` exactly on the empty row
sequence; on a non-empty sequence it succeeds and the dataset's date is the
date component of the first row's timestamp. -/
theorem dataset_new_spec :
    (∀ url : String, DataSet.new url [] = .error .emptyDataSet)
  ∧ (∀ (url : String) (r : Row) (rs : List Row),
        DataSet.new url (r :: rs)
          = .ok { date := r.timestamp.date, source_url := url, rows := r :: rs }) :=
  ⟨fun _ => rfl, fun _ _ _ => rfl⟩

/-! ### Timestamp-resolution lemmas for `Row.from_raw` -/

theorem from_raw_hint_irrelevant (raw : RawRow) (hint₁ hint₂ : Option NaiveDateTime)
    (s : String) (hds : raw.daten_stand = some s) :
    Row.from_raw raw hint₁ = Row.from_raw raw hint₂ := by
  unfold Row.from_raw
  rw [hds]

theorem from_raw_chrono (raw : RawRow) (hint : Option NaiveDateTime) (s : String)
    (hds : raw.daten_stand = some s) (hp : parseDateTime s = none) :
    Row.from_raw raw hint = .err .chrono := by
  unfold Row.from_raw
  simp only [hds, hp]

theorem from_raw_ts_explicit (raw : RawRow) (hint : Option NaiveDateTime) (s : String)
    (t : NaiveDateTime) (row : Row) (hds : raw.daten_stand = some s)
    (hp : parseDateTime s = some t) (hok : Row.from_raw raw hint = .ok row) :
    row.timestamp = t := by
  unfold Row.from_raw at hok
  simp only [hds, hp] at hok
  repeat' split at hok
  all_goals first
    | contradiction
    | (injection hok with h; subst h; rfl)

theorem from_raw_ts_hint (raw : RawRow) (h : NaiveDateTime) (row : Row)
    (hds : raw.daten_stand = none)
    (hok : Row.from_raw raw (some h) = .ok row) :
    row.timestamp = h := by
  unfold Row.from_raw at hok
  simp only [hds] at hok
  repeat' split at hok
  all_goals first
    | contradiction
    | (injection hok with h2; subst h2; rfl)

theorem from_raw_missing_ts (raw : RawRow) (hds : raw.daten_stand = none) :
    Row.from_raw raw none = .err .missingTimestamp := by
  unfold Row.from_raw
  rw [hds]

/-! ### C5 — timestamp resolution order -/

/-- C5: `Row::from_raw` resolves the row timestamp in order: a present
`daten_stand` field is parsed with the fixed format and takes precedence over
any hint (the result does not depend on the hint, a failed parse is a
`Chrono` error, and a successful run carries the parsed value); with no
field but a hint, the hint is used verbatim; with neither, the row fails
with `MissingTimestamp`. -/
theorem from_raw_timestamp_resolution :
    (∀ (raw : RawRow) (hint₁ hint₂ : Option NaiveDateTime) (s : String),
        raw.daten_stand = some s →
        Row.from_raw raw hint₁ = Row.from_raw raw hint₂)
  ∧ (∀ (raw : RawRow) (hint : Option NaiveDateTime) (s : String),
        raw.daten_stand = some s → parseDateTime s = none →
        Row.from_raw raw hint = .err .chrono)
  ∧ (∀ (raw : RawRow) (hint : Option NaiveDateTime) (s : String) (t : NaiveDateTime)
        (row : Row),
        raw.daten_stand = some s → parseDateTime s = some t →
        Row.from_raw raw hint = .ok row → row.timestamp = t)
  ∧ (∀ (raw : RawRow) (h : NaiveDateTime) (row : Row),
        raw.daten_stand = none →
        Row.from_raw raw (some h) = .ok row → row.timestamp = h)
  ∧ (∀ raw : RawRow, raw.daten_stand = none →
        Row.from_raw raw none = .err .missingTimestamp) :=
  ⟨from_raw_hint_irrelevant, from_raw_chrono, from_raw_ts_explicit,
   from_raw_ts_hint, from_raw_missing_ts⟩

/-- A raw record with an explicit, well-formed timestamp field. -/
def rawWithTs : RawRow :=
  { idx := none, bundesland := none, gemeindeschluessel := some "05", kreis := none,
    anzahl_meldebereiche := none, faelle_covid_aktuell := none,
    faelle_covid_aktuell_invasiv_beatmet := none, faelle_covid_aktuell_beatmet := none,
    faelle_cobid_aktuell_im_bundesland := none, anzahl_standorte := 3,
    betten_frei := "12.0", betten_belegt := "3",
    daten_stand := some "2021-03-05 12:15:00",
    betten_belegt_nur_erwachsen := none, betten_frei_nur_erwachsen := none }

/-- A raw record with a malformed timestamp field. -/
def rawBadTs : RawRow := { rawWithTs with daten_stand := some "garbage" }

/-- A raw record with no timestamp field. -/
def rawNoTs : RawRow := { rawWithTs with daten_stand := none }

/-- C5 (witness): the resolution-order theorem instantiated at concrete
records. -/
theorem from_raw_timestamp_resolution_witness :
    Row.from_raw rawWithTs (some ⟨⟨2020, 1, 1⟩, 0, 0, 0⟩) = Row.from_raw rawWithTs none
  ∧ Row.from_raw rawBadTs (some ⟨⟨2020, 1, 1⟩, 0, 0, 0⟩) = .err .chrono
  ∧ Row.from_raw rawNoTs none = .err .missingTimestamp :=
  ⟨from_raw_timestamp_resolution.1 rawWithTs _ none "2021-03-05 12:15:00" rfl,
   from_raw_timestamp_resolution.2.1 rawBadTs _ "garbage" rfl rfl,
   from_raw_timestamp_resolution.2.2.2.2 rawNoTs rfl⟩

/-! ### C4 — missing region key -/

/-- A raw record missing both region-key fields and the timestamp field. -/
def rawNoRegion : RawRow :=
  { rawNoTs with gemeindeschluessel := none, kreis := none }

/-- C4 (counterexample): the claim asserts `InvalidRow` for every record
missing both region-key fields, regardless of the timestamp hint; but with no
timestamp field and no hint the timestamp is resolved first, so `from_raw`
fails with `MissingTimestamp` instead. -/
theorem from_raw_missing_region_key_refuted :
    Row.from_raw rawNoRegion none = .err .missingTimestamp
  ∧ Row.from_raw rawNoRegion none ≠ .err .invalidRow := by
  refine ⟨rfl, ?_⟩
  decide

/-- C4 (amended): a raw record missing both the explicit region-key field and
the legacy district field fails with `InvalidRow` regardless of all other
fields, provided the timestamp step resolves (a present explicit timestamp
field parses, and absent one a hint is supplied); with no explicit timestamp
and no hint it fails with `MissingTimestamp` before the region-key check. -/
theorem from_raw_missing_region_key (raw : RawRow) (hint : Option NaiveDateTime)
    (hg : raw.gemeindeschluessel = none) (hk : raw.kreis = none)
    (hts : ∀ s, raw.daten_stand = some s → (parseDateTime s).isSome = true)
    (hhint : raw.daten_stand = none → hint.isSome = true) :
    Row.from_raw raw hint = .err .invalidRow := by
  unfold Row.from_raw
  cases hds : raw.daten_stand with
  | some s =>
    have hs := hts s hds
    cases hp : parseDateTime s with
    | none => rw [hp] at hs; simp at hs
    | some t => simp [hp, hg, hk, Option.or]
  | none =>
    cases hint with
    | none => have hh := hhint hds; simp at hh
    | some h => simp [hg, hk, Option.or]

/-- A raw record missing both region-key fields but with a parsable explicit
timestamp field. -/
def rawNoRegionWithTs : RawRow :=
  { rawWithTs with gemeindeschluessel := none, kreis := none }

/-- C4 (witness): the amended theorem instantiated at a record whose
timestamp field parses. -/
theorem from_raw_missing_region_key_witness :
    Row.from_raw rawNoRegionWithTs none = .err .invalidRow :=
  from_raw_missing_region_key rawNoRegionWithTs none rfl rfl
    (fun s hs => by injection hs with h; subst h; decide)
    (fun hds => absurd hds (by decide))

/-! ### C9 — short region key panics -/

/-- C9: normalization is not total: when the explicit region-code field is
absent and the resolved region key is shorter than two bytes, `Row::from_raw`
panics on the slice `ags[0..2]` instead of returning a typed error.  (The
hypotheses on the timestamp step express that execution reaches the
region-key resolution, which the claim's "resolved region key"
presupposes.) -/
theorem from_raw_short_ags_panics (raw : RawRow) (hint : Option NaiveDateTime) (a : String)
    (hbl : raw.bundesland = none)
    (hags : raw.gemeindeschluessel.or raw.kreis = some a)
    (hlen : a.length < 2)
    (hts : ∀ s, raw.daten_stand = some s → (parseDateTime s).isSome = true)
    (hhint : raw.daten_stand = none → hint.isSome = true) :
    Row.from_raw raw hint = .panicked := by
  unfold Row.from_raw
  cases hds : raw.daten_stand with
  | some s =>
    have hs := hts s hds
    cases hp : parseDateTime s with
    | none => rw [hp] at hs; simp at hs
    | some t => simp [hp, hags, hbl, hlen]
  | none =>
    cases hint with
    | none => have hh := hhint hds; simp at hh
    | some h => simp [hags, hbl, hlen]

/-- A raw record with a one-byte region key and no explicit region code. -/
def rawShortAgs : RawRow := { rawWithTs with gemeindeschluessel := some "5" }

/-- C9 (witness): the panic theorem instantiated at a one-byte region key. -/
theorem from_raw_short_ags_panics_witness :
    Row.from_raw rawShortAgs none = .panicked :=
  from_raw_short_ags_panics rawShortAgs none "5" rfl rfl (by decide)
    (fun s hs => by injection hs with h; subst h; decide)
    (fun hds => absurd hds (by decide))

/-! ### C10 — invalid URL timestamp pattern panics -/

/-- C10: when the URL path's leftmost match of the `YYYY-MM-DD-HH-MM` digit
pattern denotes a calendar-invalid date or an out-of-range time,
`timestamp_hint_from_url` panics inside `from_ymd`/`and_hms` instead of
returning no hint, and consequently fetching such a resource via
`Api::get_archived` panics as well. -/
theorem hint_from_url_panics (path : String) (y m d h mi : Nat)
    (hmatch : findTimestampMatch path.toList = some (y, m, d, h, mi))
    (hbad : ¬(dateValid y m d = true ∧ (h ≤ 23 && mi ≤ 59) = true)) :
    timestamp_hint_from_url path = .panicked
  ∧ ∀ records : List RawRow, Api.get_archived path records = .panicked := by
  have h1 : timestamp_hint_from_url path = .panicked := by
    unfold timestamp_hint_from_url
    rw [hmatch]
    by_cases hd : dateValid y m d
    · by_cases htm : (h ≤ 23 && mi ≤ 59) = true
      · exact absurd ⟨hd, htm⟩ hbad
      · simp [hd, htm]
    · simp [hd]
  refine ⟨h1, fun records => ?_⟩
  unfold Api.get_archived
  rw [h1]

/-- C10 (witness): a URL path embedding month 13 and hour 99 panics. -/
theorem hint_from_url_panics_witness :
    timestamp_hint_from_url "/divi-2021-13-05-99-30.csv" = .panicked
  ∧ ∀ records : List RawRow,
      Api.get_archived "/divi-2021-13-05-99-30.csv" records = .panicked :=
  hint_from_url_panics "/divi-2021-13-05-99-30.csv" 2021 13 5 99 30
    (by decide) (by decide)

/-! ### Store lemmas -/

theorem lookup_upsert (files : List (String × DataSet)) (key : String) (ds : DataSet) :
    (upsert files key ds).lookup key = some ds := by
  induction files with
  | nil => simp [upsert, List.lookup]
  | cons kv rest ih =>
    obtain ⟨k, v⟩ := kv
    simp only [upsert]
    by_cases h : k = key
    · simp [h, List.lookup]
    · simp only [if_neg h, List.lookup]
      have : (key == k) = false := by
        simp [Ne.symm h]
      simp [this, ih]

theorem contains_insertUrl (info : Info) (url u : String) :
    (info.insertUrl url).urls_synced.contains u
      = (info.urls_synced.contains u || (u == url)) := by
  unfold Info.insertUrl
  by_cases h : url ∈ info.urls_synced
  · by_cases hu : u = url
    · subst hu; simp [h]
    · simp [h, hu]
  · by_cases hu : u = url
    · subst hu; simp [h]
    · simp [h, hu]

theorem contains_put (s : Store) (ds : DataSet) (u : String) :
    (s.put_dataset ds).1.contains_dataset_source_url u
      = (s.contains_dataset_source_url u || (u == ds.source_url)) := by
  unfold Store.put_dataset Store.save_info Store.contains_dataset_source_url
  exact contains_insertUrl s.info ds.source_url u

/-- A sequence of `put_dataset` calls, keeping only the final store. -/
def putAll (s : Store) (dss : List DataSet) : Store :=
  dss.foldl (fun st ds => (st.put_dataset ds).1) s

theorem contains_putAll (dss : List DataSet) :
    ∀ (s : Store) (u : String),
      (putAll s dss).contains_dataset_source_url u
        = (s.contains_dataset_source_url u
            || (dss.map (fun ds => ds.source_url)).contains u) := by
  induction dss with
  | nil => intro s u; simp [putAll]
  | cons ds rest ih =>
    intro s u
    simp only [putAll, List.foldl_cons] at ih ⊢
    rw [ih, contains_put]
    by_cases hb : u = ds.source_url
    · subst hb; simp
    · have hbf : (u == ds.source_url) = false := beq_eq_false_iff_ne.mpr hb
      simp [hbf, hb, Bool.or_assoc]

/-! ### C2 — put_dataset contract -/

/-- C2: `Store::put_dataset` issues exactly two writes, in order: first the
dataset file at the location deterministically keyed by the dataset's date,
then the durable known-URL set; on return the dataset is readable under its
date (a second put with the same date overwrites it), the source URL is a
member of the known-URL set, and the durable copy of the set equals the
in-memory one. -/
theorem put_dataset_contract (s : Store) (ds : DataSet) :
    (s.put_dataset ds).2
        = [Event.writeDataset (rows_path s.path ds.date) ds,
           Event.writeInfo ((s.put_dataset ds).1.info)]
  ∧ (s.put_dataset ds).1.get_dataset ds.date = some ds
  ∧ (s.put_dataset ds).1.contains_dataset_source_url ds.source_url = true
  ∧ (s.put_dataset ds).1.infoFile = some ((s.put_dataset ds).1.info)
  ∧ (∀ ds₂ : DataSet, ds₂.date = ds.date →
      ((s.put_dataset ds).1.put_dataset ds₂).1.get_dataset ds.date = some ds₂) := by
  refine ⟨rfl, ?_, ?_, rfl, ?_⟩
  · unfold Store.put_dataset Store.save_info Store.get_dataset
    exact lookup_upsert s.dataFiles (rows_path s.path ds.date) ds
  · rw [contains_put]
    simp
  · intro ds₂ hdate
    rw [← hdate]
    unfold Store.put_dataset Store.save_info Store.get_dataset
    exact lookup_upsert _ _ ds₂

/-- A store freshly opened on an empty directory. -/
def storeEmpty : Store := Store.new "data" none []

/-- A sample dataset. -/
def dsA : DataSet := { date := ⟨2021, 3, 5⟩, source_url := "https://example/a", rows := [] }

/-- A second sample dataset with the same date as `dsA`. -/
def dsB : DataSet := { date := ⟨2021, 3, 5⟩, source_url := "https://example/b", rows := [] }

/-- C2 (witness): the contract instantiated at a fresh store, including the
same-date overwrite conjunct. -/
theorem put_dataset_contract_witness :
    (storeEmpty.put_dataset dsA).2
        = [Event.writeDataset (rows_path storeEmpty.path dsA.date) dsA,
           Event.writeInfo ((storeEmpty.put_dataset dsA).1.info)]
  ∧ ((storeEmpty.put_dataset dsA).1.put_dataset dsB).1.get_dataset dsA.date = some dsB := by
  have h := put_dataset_contract storeEmpty dsA
  exact ⟨h.1, h.2.2.2.2 dsB rfl⟩

/-! ### C8 — ledger round trip -/

/-- C8: after `put_dataset` returns, `get_dataset` at the dataset's date
yields an equal dataset and `contains_dataset_source_url` holds for its
source URL; starting from a store opened on empty storage, membership holds
only for URLs that were put (a URL absent from every put dataset is not a
member). -/
theorem store_put_get_roundtrip :
    (∀ (s : Store) (ds : DataSet),
        (s.put_dataset ds).1.get_dataset ds.date = some ds
      ∧ (s.put_dataset ds).1.contains_dataset_source_url ds.source_url = true)
  ∧ (∀ (p : String) (dss : List DataSet) (u : String),
        (dss.map (fun ds => ds.source_url)).contains u = false →
        (putAll (Store.new p none []) dss).contains_dataset_source_url u = false) := by
  constructor
  · intro s ds
    refine ⟨?_, ?_⟩
    · unfold Store.put_dataset Store.save_info Store.get_dataset
      exact lookup_upsert s.dataFiles (rows_path s.path ds.date) ds
    · rw [contains_put]; simp
  · intro p dss u hnotin
    rw [contains_putAll, hnotin]
    simp [Store.new, Store.contains_dataset_source_url]

/-- C8 (witness): the round trip and never-put conjuncts at concrete data. -/
theorem store_put_get_roundtrip_witness :
    ((storeEmpty.put_dataset dsA).1.get_dataset dsA.date = some dsA
      ∧ (storeEmpty.put_dataset dsA).1.contains_dataset_source_url dsA.source_url = true)
  ∧ (putAll (Store.new "data" none []) [dsA]).contains_dataset_source_url
      "https://example/other" = false :=
  ⟨store_put_get_roundtrip.1 storeEmpty dsA,
   store_put_get_roundtrip.2 "data" [dsA] "https://example/other" (by decide)⟩

/-! ### C7 — crawler yield order -/

/-- The URLs a pending-pages value will still deliver. -/
def pendingJoin : Option (List (List String)) → List String
  | none => []
  | some ps => ps.flatten

theorem runStream_eq :
    ∀ (fuel : Nat) (pending : Option (List (List String))) (buffer : List String),
      buffer.length + (pendingJoin pending).length < fuel →
      runStream fuel ⟨pending, buffer⟩ = buffer.reverse ++ pendingJoin pending := by
  intro fuel
  induction fuel with
  | zero => intro pending buffer h; omega
  | succ n ih =>
    intro pending buffer h
    cases hb : buffer.getLast? with
    | some u =>
      obtain ⟨ys, rfl⟩ := List.getLast?_eq_some_iff.1 hb
      simp only [runStream, pollNext, hb, List.dropLast_concat]
      rw [ih pending ys (by simp [List.length_append] at h; omega)]
      simp [List.reverse_concat]
    | none =>
      have hbe : buffer = [] := List.getLast?_eq_none_iff.1 hb
      subst hbe
      cases pending with
      | none => simp [runStream, pollNext, pendingJoin]
      | some pages =>
        have aux : ∀ ps : List (List String), ps.flatten.length < n + 1 →
            (match refill ps with
             | (none, _) => []
             | (some u, s') => u :: runStream n s') = ps.flatten := by
          intro ps
          induction ps with
          | nil => intro _; simp [refill]
          | cons page rest ihp =>
            intro hlen
            cases page with
            | nil =>
              simp only [refill, List.reverse_nil, List.getLast?_nil]
              rw [ihp (by simpa using hlen)]
              simp
            | cons p0 ps0 =>
              simp only [refill, List.reverse_cons, List.getLast?_concat, List.dropLast_concat]
              cases rest with
              | nil =>
                have e1 : (if ([] : List (List String)).isEmpty = true
                    then (none : Option (List (List String))) else some []) = none := rfl
                rw [e1, ih none ps0.reverse (by simp [pendingJoin]; simp at hlen; omega)]
                simp [pendingJoin]
              | cons r rs =>
                have e1 : (if ((r :: rs) : List (List String)).isEmpty = true
                    then (none : Option (List (List String))) else some (r :: rs))
                      = some (r :: rs) := rfl
                rw [e1, ih (some (r :: rs)) ps0.reverse
                  (by simp [pendingJoin]; simp at hlen; omega)]
                simp [pendingJoin]
        simp only [runStream, pollNext, hb]
        have hlen : pages.flatten.length < n + 1 := by simpa [pendingJoin] using h
        rw [aux pages hlen]
        simp [pendingJoin]

/-- C7: driven to completion, the archive stream yields the URLs of each page
first-discovered-first (FIFO per page), pages in link order, and then
terminates: the yielded sequence equals the concatenation of the pages'
URL lists; in particular a 2-page listing (3 links then 2 links) yields
exactly those 5 URLs in page-then-in-page order. -/
theorem archive_stream_yields_in_order :
    (∀ (pages : List (List String)) (fuel : Nat),
        pages.flatten.length < fuel →
        runStream fuel (initialArchiveState pages) = pages.flatten)
  ∧ runStream 6 (initialArchiveState [["u1", "u2", "u3"], ["u4", "u5"]])
      = ["u1", "u2", "u3", "u4", "u5"] := by
  constructor
  · intro pages fuel hfuel
    have h := runStream_eq fuel (some pages) [] (by simpa [pendingJoin] using hfuel)
    simpa [pendingJoin, initialArchiveState] using h
  · rfl

/-- C7 (witness): the ordering theorem instantiated at the 2-page listing. -/
theorem archive_stream_yields_in_order_witness :
    runStream 9 (initialArchiveState [["u1", "u2", "u3"], ["u4", "u5"]])
      = [["u1", "u2", "u3"], ["u4", "u5"]].flatten :=
  archive_stream_yields_in_order.1 [["u1", "u2", "u3"], ["u4", "u5"]] 9 (by decide)

/-! ### C1 — resume policies -/

theorem takeWhile_congr_mem {α : Type} (p q : α → Bool) :
    ∀ l : List α, (∀ x ∈ l, p x = q x) → l.takeWhile p = l.takeWhile q := by
  intro l
  induction l with
  | nil => intro _; rfl
  | cons a as ih =>
    intro hpq
    simp only [List.takeWhile_cons]
    rw [hpq a (by simp)]
    cases hq : q a with
    | false => rfl
    | true => rw [ih (fun x hx => hpq x (by simp [hx]))]

theorem filter_congr_mem {α : Type} (p q : α → Bool) :
    ∀ l : List α, (∀ x ∈ l, p x = q x) → l.filter p = l.filter q := by
  intro l
  induction l with
  | nil => intro _; rfl
  | cons a as ih =>
    intro hpq
    simp only [List.filter_cons]
    rw [hpq a (by simp), ih (fun x hx => hpq x (by simp [hx]))]

theorem syncRun_stop_fetches (f : String → DataSet) (hsrc : ∀ u, (f u).source_url = u) :
    ∀ (urls : List String) (store : Store), urls.Nodup →
      (syncRun f false false store urls).1
        = urls.takeWhile (fun u => !(store.contains_dataset_source_url u)) := by
  intro urls
  induction urls with
  | nil => intro store _; rfl
  | cons url rest ih =>
    intro store hnd
    rw [List.nodup_cons] at hnd
    obtain ⟨hnotin, hrest⟩ := hnd
    by_cases hc : store.contains_dataset_source_url url = true
    · simp [syncRun, hc, List.takeWhile_cons]
    · have hcf : store.contains_dataset_source_url url = false := by
        simpa using hc
      simp only [syncRun, hcf, Bool.not_false, Bool.and_true, Bool.and_false,
        Bool.not_true, Bool.false_eq_true, if_false, List.takeWhile_cons, if_true]
      rw [ih ((store.put_dataset (f url)).1) hrest]
      congr 1
      apply takeWhile_congr_mem
      intro x hx
      rw [contains_put, hsrc]
      have hxne : (x == url) = false :=
        beq_eq_false_iff_ne.mpr (fun hxe => hnotin (hxe ▸ hx))
      simp [hxne]

theorem syncRun_checkAll_fetches (f : String → DataSet) (hsrc : ∀ u, (f u).source_url = u) :
    ∀ (urls : List String) (store : Store), urls.Nodup →
      (syncRun f true false store urls).1
        = urls.filter (fun u => !(store.contains_dataset_source_url u)) := by
  intro urls
  induction urls with
  | nil => intro store _; rfl
  | cons url rest ih =>
    intro store hnd
    rw [List.nodup_cons] at hnd
    obtain ⟨hnotin, hrest⟩ := hnd
    by_cases hc : store.contains_dataset_source_url url = true
    · simp only [syncRun, hc, Bool.not_true, Bool.and_true, if_true,
        List.filter_cons, Bool.false_eq_true, if_false]
      exact ih store hrest
    · have hcf : store.contains_dataset_source_url url = false := by
        simpa using hc
      simp only [syncRun, hcf, Bool.not_false, Bool.and_false, Bool.false_eq_true,
        if_false, List.filter_cons, if_true]
      rw [ih ((store.put_dataset (f url)).1) hrest]
      congr 1
      apply filter_congr_mem
      intro x hx
      rw [contains_put, hsrc]
      have hxne : (x == url) = false :=
        beq_eq_false_iff_ne.mpr (fun hxe => hnotin (hxe ▸ hx))
      simp [hxne]

/-- C1: over any duplicate-free URL sequence yielded by the crawler, and any
fetcher returning a dataset whose source URL is the fetched URL, the sync
loop with stop-at-first-known policy (`check_all = resync_all = false`)
invokes the fetcher exactly on the longest prefix of URLs not in the ledger —
it halts at the first known URL and fetches neither it nor anything after it
— while the check-all policy (`check_all = true`) invokes the fetcher exactly
on the URLs not in the ledger, including unknown URLs after a known one. -/
theorem sync_policy_fetch_set (f : String → DataSet) (store : Store) (urls : List String)
    (hsrc : ∀ u, (f u).source_url = u) (hnd : urls.Nodup) :
    (syncRun f false false store urls).1
      = urls.takeWhile (fun u => !(store.contains_dataset_source_url u))
  ∧ (syncRun f true false store urls).1
      = urls.filter (fun u => !(store.contains_dataset_source_url u)) :=
  ⟨syncRun_stop_fetches f hsrc urls store hnd,
   syncRun_checkAll_fetches f hsrc urls store hnd⟩

/-- A fetcher stub: the returned dataset's source URL is the fetched URL,
as `Api::get_archived` guarantees via `DataSet::new(url, rows)`. -/
def fetchSample : String → DataSet :=
  fun u => { date := ⟨2021, 3, 5⟩, source_url := u, rows := [] }

/-- A store whose ledger already contains the middle URL. -/
def storeKnownK : Store := Store.new "data" (some ⟨["https://example/k"]⟩) []

/-- C1 (witness): the policy theorem instantiated at a 3-URL crawl whose
middle URL is already in the ledger. -/
theorem sync_policy_fetch_set_witness :
    (syncRun fetchSample false false storeKnownK
        ["https://example/a", "https://example/k", "https://example/b"]).1
      = ["https://example/a", "https://example/k", "https://example/b"].takeWhile
          (fun u => !(storeKnownK.contains_dataset_source_url u))
  ∧ (syncRun fetchSample true false storeKnownK
        ["https://example/a", "https://example/k", "https://example/b"]).1
      = ["https://example/a", "https://example/k", "https://example/b"].filter
          (fun u => !(storeKnownK.contains_dataset_source_url u)) :=
  sync_policy_fetch_set fetchSample storeKnownK
    ["https://example/a", "https://example/k", "https://example/b"]
    (fun _ => rfl) (by decide)

end Divi
